import Mathlib

/-!
# Verification of the lol-html streaming HTML rewriter façade and pipeline

Shallow embedding of `src/rewriter/mod.rs` (the `HtmlRewriter` façade,
`try_encoding_from_str`, `rewrite_str`, and the error enums) together with
models of pipeline components (`TransformStream`, `MemoryLimiter`,
selector matching, content-handler dispatch) that are declared but whose
source modules are not part of this repository snapshot; those models are
marked `Modelled from the spec:` in their doc comments.

Bytes of the ASCII-compatible input stream are represented as `List Char`
(the claims only exercise ASCII content, where one char is one byte).
-/

namespace LolHtml

/-- Embeds `MemoryLimitExceededError` (a unit struct in the source;
its module is absent from src/, the shape is fixed by its use in
`RewritingError::MemoryLimitExceeded` and the tests). -/
inductive MemoryLimitExceededError
  | mk
deriving DecidableEq, Repr

/-- Embeds the `EncodingError` enum of `src/rewriter/mod.rs` (lines 37-49). -/
inductive EncodingError
  | UnknownEncoding
  | NonAsciiCompatibleEncoding
deriving DecidableEq, Repr

/-- Embeds the `RewritingError` enum of `src/rewriter/mod.rs` (lines 59-76).
`ContentHandlerError` carries the boxed handler error; we model the opaque
`Box<dyn Error>` payload by its displayed message (a `String`), which is all
the code ever extracts from it. `ParsingAmbiguity` likewise carries the
message of the inner `ParsingAmbiguityError`. -/
inductive RewritingError
  | MemoryLimitExceeded (e : MemoryLimitExceededError)
  | ParsingAmbiguity (msg : String)
  | ContentHandlerError (msg : String)
deriving DecidableEq, Repr

/-- Modelled from the spec: the `Display` impl of `MemoryLimitExceededError`
(its module is absent from src/). The exact text is irrelevant to the claims;
what matters is that `RewritingError`'s display forwards payloads unchanged. -/
def MemoryLimitExceededError.display : MemoryLimitExceededError → String
  | .mk => "The memory limit has been exceeded."

/-- Embeds the `#[error("{0}")]` display derivation on `RewritingError`
(lines 59-76): each variant displays exactly as its payload displays. -/
def RewritingError.display : RewritingError → String
  | .MemoryLimitExceeded e => e.display
  | .ParsingAmbiguity msg => msg
  | .ContentHandlerError msg => msg

/-! ## The `HtmlRewriter` façade (lines 118-228)

The underlying `TransformStream` drives the missing pipeline; the façade's
control flow does not inspect it beyond the `Result` of `stream.write` /
`stream.end`, so the façade is embedded as a state machine parameterised by
that result. A Rust `panic!`/`assert!` failure is modelled as the
`panicked` outcome carrying the assertion message. -/

/-- Outcome of a façade call: either the caller is aborted by a failed
`assert!` (with its message), or the call returns normally. -/
inductive CallOutcome (α : Type)
  | panicked (msg : String)
  | returned (v : α)
deriving DecidableEq, Repr

/-- `true` iff the call aborted the caller. -/
def CallOutcome.isPanicked : CallOutcome α → Bool
  | .panicked _ => true
  | .returned _ => false

/-- Embeds the façade state of `HtmlRewriter` (lines 118-122): the
`finished` and `poisoned` flags. The owned `TransformStream` is kept
outside the structure (results of its calls are passed in explicitly). -/
structure HtmlRewriter where
  finished : Bool
  poisoned : Bool
deriving DecidableEq, Repr

/-- Embeds `HtmlRewriter::write` (lines 201-208): asserts `!finished`
("Data was written into the stream after it has ended."), then the
`guarded!` macro (lines 124-139): asserts `!poisoned` ("Attempt to use the
HtmlRewriter after a fatal error."), runs `stream.write` (whose result is
the parameter `streamRes`), and sets `poisoned` when that result is an
error. -/
def HtmlRewriter.write (self : HtmlRewriter) (streamRes : Except RewritingError Unit) :
    CallOutcome (HtmlRewriter × Except RewritingError Unit) :=
  if self.finished then
    .panicked "Data was written into the stream after it has ended."
  else if self.poisoned then
    .panicked "Attempt to use the HtmlRewriter after a fatal error."
  else
    .returned ({ self with poisoned := streamRes.isOk = false }, streamRes)

/-- Embeds `HtmlRewriter::end` (lines 222-227): asserts `!finished`
("Stream was ended twice."), sets `finished := true`, then the `guarded!`
macro exactly as in `write`. Note the source sets `finished` before
entering `guarded!`, so the finished check has precedence on later calls. -/
def HtmlRewriter.endCall (self : HtmlRewriter) (streamRes : Except RewritingError Unit) :
    CallOutcome (HtmlRewriter × Except RewritingError Unit) :=
  if self.finished then
    .panicked "Stream was ended twice."
  else
    let self := { self with finished := true }
    if self.poisoned then
      .panicked "Attempt to use the HtmlRewriter after a fatal error."
    else
      .returned ({ self with poisoned := streamRes.isOk = false }, streamRes)

/-! ## Encoding lookup (`try_encoding_from_str`, lines 22-31)

The label table itself lives in the external `encoding_rs` crate; only its
use is in src/. The table is modelled from the spec (WHATWG encoding
labels, §6 of spec.md and the doc comment at lines 45-48): a small but
representative set of encodings with their standard labels, with
`for_label_no_replacement` returning `none` for any label that resolves to
the `replacement` encoding — exactly `encoding_rs`'s documented contract. -/

/-- Modelled from the spec: a representative set of WHATWG encodings.
ASCII-compatible ones plus the non-ASCII-compatible four named at
`src/rewriter/mod.rs` lines 45-46 (`UTF-16LE`, `UTF-16BE`, `ISO-2022-JP`,
`replacement`). -/
inductive Encoding
  | utf8
  | windows1252
  | shiftJis
  | big5
  | eucJp
  | utf16le
  | utf16be
  | iso2022jp
  | replacement
deriving DecidableEq, Repr

/-- Modelled from the spec: `Encoding::is_ascii_compatible` of
`encoding_rs` — false exactly for the UTF-16 variants, ISO-2022-JP and the
replacement encoding. -/
def Encoding.isAsciiCompatible : Encoding → Bool
  | .utf16le => false
  | .utf16be => false
  | .iso2022jp => false
  | .replacement => false
  | _ => true

/-- Modelled from the spec: the WHATWG label → encoding lookup
(`encoding_rs::Encoding::for_label`) restricted to the encodings above,
on already-normalised (lowercase, trimmed) labels. Note that the labels
`csiso2022kr`, `hz-gb-2312`, `iso-2022-cn`, `iso-2022-cn-ext`,
`iso-2022-kr` and `replacement` all resolve to the replacement encoding. -/
def Encoding.forLabel (label : String) : Option Encoding :=
  if label ∈ ["utf-8", "utf8", "unicode-1-1-utf-8"] then some .utf8
  else if label ∈ ["windows-1252", "iso-8859-1", "latin1", "l1", "ascii", "us-ascii"] then
    some .windows1252
  else if label ∈ ["shift_jis", "shift-jis", "sjis", "ms_kanji"] then some .shiftJis
  else if label ∈ ["big5", "big5-hkscs", "cn-big5"] then some .big5
  else if label ∈ ["euc-jp", "x-euc-jp"] then some .eucJp
  else if label ∈ ["utf-16", "utf-16le"] then some .utf16le
  else if label = "utf-16be" then some .utf16be
  else if label ∈ ["iso-2022-jp", "csiso2022jp"] then some .iso2022jp
  else if label ∈ ["replacement", "csiso2022kr", "hz-gb-2312", "iso-2022-cn",
      "iso-2022-cn-ext", "iso-2022-kr"] then
    some .replacement
  else none

/-- Modelled from the spec:
`encoding_rs::Encoding::for_label_no_replacement` — like `for_label` but
returns `none` when the label resolves to the replacement encoding, so the
replacement encoding can never be obtained from it. -/
def Encoding.forLabelNoReplacement (label : String) : Option Encoding :=
  match Encoding.forLabel label with
  | some .replacement => none
  | r => r

/-- Embeds `try_encoding_from_str` (`src/rewriter/mod.rs` lines 22-31):
look the label up with `for_label_no_replacement` (else
`UnknownEncoding`), then reject non-ASCII-compatible encodings with
`NonAsciiCompatibleEncoding`. -/
def tryEncodingFromStr (encoding : String) : Except EncodingError Encoding :=
  match Encoding.forLabelNoReplacement encoding with
  | none => .error .UnknownEncoding
  | some e => if e.isAsciiCompatible then .ok e else .error .NonAsciiCompatibleEncoding

/-- Embeds `HtmlRewriter::try_new` (lines 150-189) at the façade level: the
encoding is resolved first (the `?` on line 151); only on success is the
rewriter state constructed (`finished := false`, `poisoned := false`).
The second component records every byte slice passed to the output sink
during construction — the source never invokes the sink there, so it is
`[]`. -/
def HtmlRewriter.tryNew (encodingLabel : String) :
    Except EncodingError (HtmlRewriter × List (List Char)) :=
  match tryEncodingFromStr encodingLabel with
  | .error e => .error e
  | .ok _ => .ok ({ finished := false, poisoned := false }, [])

/-! ## MemoryLimiter and TransformStream

The `memory` and `transform_stream` modules are not part of this
repository snapshot; they are modelled from spec.md §4.1 ("Shared,
process-local counter … `increase` fails with `MemoryLimitExceeded` when
`current + n > max`") and §4.6 ("On `write(bytes)`: appends to buffer
(via limiter), drives the tokenizer until it blocks, flushes
fully-processed buffer prefix to the sink, compacts the buffer"). -/

/-- Modelled from the spec (§4.1): the shared memory counter with a
ceiling. -/
structure MemoryLimiter where
  currentUsage : Nat
  maxAllowed : Nat
deriving DecidableEq, Repr

/-- Modelled from the spec (§4.1): `increase(n)` fails with
`MemoryLimitExceeded` when `current + n > max`. -/
def MemoryLimiter.increase (l : MemoryLimiter) (n : Nat) :
    Except MemoryLimitExceededError MemoryLimiter :=
  if l.currentUsage + n > l.maxAllowed then .error .mk
  else .ok { l with currentUsage := l.currentUsage + n }

/-- Modelled from the spec (§4.1): `decrease(n)` releases tracked bytes. -/
def MemoryLimiter.decrease (l : MemoryLimiter) (n : Nat) : MemoryLimiter :=
  { l with currentUsage := l.currentUsage - n }

/-- Helper for the spec-modelled tokenizer-blocking check: index of the
first unquoted `>` in a tag tail, tracking double-quoted attribute values
(an incomplete tag has none). -/
def findTagEnd : List Char → Bool → Option Nat
  | [], _ => none
  | c :: rest, inQuote =>
    if c = '"' then (findTagEnd rest (!inQuote)).map (· + 1)
    else if c = '>' ∧ inQuote = false then some 0
    else (findTagEnd rest inQuote).map (· + 1)

/-- Modelled from the spec (§4.2 "Tokenization blocks (yields) when the
buffer tail contains an incomplete construct"): the length of the maximal
buffer prefix made of complete constructs; a `<` whose tag never closes
(respecting quoted attribute values) blocks everything from that point on.
Fuel-indexed for structural recursion. -/
def scanConsumedFuel : Nat → List Char → Nat
  | 0, _ => 0
  | _, [] => 0
  | fuel + 1, c :: rest =>
    if c = '<' then
      match findTagEnd rest false with
      | none => 0
      | some n => (n + 2) + scanConsumedFuel fuel (rest.drop (n + 1))
    else 1 + scanConsumedFuel fuel rest

/-- The consumed-prefix length of a buffer (fuel instantiated at the
buffer length, which always suffices since every step consumes a byte). -/
def scanConsumed (buf : List Char) : Nat := scanConsumedFuel buf.length buf

/-- Modelled from the spec (§4.6): `TransformStream` state — the shared
limiter and the unconsumed tail of the input. With
`preallocated_parsing_buffer_size = 0` the tracked usage is the buffered
byte count. -/
structure TransformStream where
  limiter : MemoryLimiter
  buffer : List Char
deriving DecidableEq, Repr

/-- Modelled from the spec (§4.6): `write` appends the chunk through the
limiter (failing with `MemoryLimitExceeded`), tokenizes as far as
possible, flushes the fully-processed prefix to the sink (returned as the
second component) and compacts the buffer, releasing the flushed bytes. -/
def TransformStream.write (s : TransformStream) (chunk : List Char) :
    Except RewritingError (TransformStream × List Char) :=
  match s.limiter.increase chunk.length with
  | .error e => .error (.MemoryLimitExceeded e)
  | .ok lim =>
    let buf := s.buffer ++ chunk
    let n := scanConsumed buf
    .ok ({ limiter := lim.decrease n, buffer := buf.drop n }, buf.take n)

/-- Modelled from the spec (§4.6): `end` signals EOF, drains and flushes
the buffered tail (per WHATWG EOF semantics incomplete constructs are
emitted as-is with no handlers to consult). -/
def TransformStream.endStream (s : TransformStream) : TransformStream × List Char :=
  ({ limiter := s.limiter.decrease s.buffer.length, buffer := [] }, s.buffer)

/-- A fresh stream with the given memory ceiling and an empty buffer. -/
def TransformStream.new (maxAllowed : Nat) : TransformStream :=
  { limiter := { currentUsage := 0, maxAllowed := maxAllowed }, buffer := [] }

/-- Feed a sequence of chunks through the stream, concatenating the
flushed output, stopping at the first error. -/
def runChunks (s : TransformStream) :
    List (List Char) → Except RewritingError (TransformStream × List Char)
  | [] => .ok (s, [])
  | c :: rest =>
    match s.write c with
    | .error e => .error e
    | .ok (s1, out) =>
      match runChunks s1 rest with
      | .error e => .error e
      | .ok (s2, outs) => .ok (s2, out ++ outs)

/-- The rewriter run with no content handlers registered: chunks are
written in order, then the stream is ended; the output is everything the
sink received. With no handlers there are no mutations to splice in
(spec §4.6: "Emitted bytes are exactly the consumed bytes with handler
mutations spliced in"). -/
def rewriteNoHandlers (maxAllowed : Nat) (chunks : List (List Char)) :
    Except RewritingError (List Char) :=
  match runChunks (TransformStream.new maxAllowed) chunks with
  | .error e => .error e
  | .ok (s, out) => .ok (out ++ s.endStream.2)

/-- The first chunk of scenario S6 / test `buffer_capacity_limit`:
`<img alt="` followed by 50 `l` bytes (60 bytes in all). -/
def c3chunk1 : List Char := "<img alt=\"".toList ++ List.replicate 50 'l'

/-- The second chunk of scenario S6: 50 `r` bytes followed by `"/>`. -/
def c3chunk2 : List Char := List.replicate 50 'r' ++ "\"/>".toList

/-! ## `rewrite_str` (lines 268-285) -/

/-- The sink pieces delivered by a pipeline call that succeeded, `[]` on
error (the sink is not called again after a fatal error, spec §7). -/
def sinkPieces (r : Except RewritingError (List (List Char))) : List (List Char) :=
  match r with
  | .ok ps => ps
  | .error _ => []

/-- Forgets the sink pieces, keeping only the `Result` the stream call
returns to the façade. -/
def toUnitRes (r : Except RewritingError (List (List Char))) : Except RewritingError Unit :=
  match r with
  | .ok _ => .ok ()
  | .error e => .error e

/-- Embeds `rewrite_str` (lines 268-285): builds a rewriter with encoding
"utf-8" (the `RewriteStrSettings → Settings` conversion, whose module is
absent from src/, fixes the encoding — Modelled from the spec: §6 default
`"utf-8"` and the source comment "never panics because encoding is always
utf-8"), `.unwrap()`s the construction (modelled as a panic outcome on the
`Err` branch), then `write`s the whole string, `end`s, propagating any
`RewritingError` with `?`, and returns the concatenated sink output.
The pipeline behaviour is abstracted by the results (`Result` plus sink
pieces) of stream `write` and `end`. Output validity as UTF-8 is inherent
to the `List Char` representation (the source guarantees encoding
validity of the output, line 283). -/
def rewriteStr (writeRes endRes : Except RewritingError (List (List Char))) :
    CallOutcome (Except RewritingError (List Char)) :=
  match HtmlRewriter.tryNew "utf-8" with
  | .error _ => .panicked "called unwrap on an Err value"
  | .ok (r, _) =>
    match r.write (toUnitRes writeRes) with
    | .panicked m => .panicked m
    | .returned (r1, res1) =>
      match res1 with
      | .error e => .returned (.error e)
      | .ok _ =>
        match r1.endCall (toUnitRes endRes) with
        | .panicked m => .panicked m
        | .returned (_, res2) =>
          match res2 with
          | .error e => .returned (.error e)
          | .ok _ => .returned (.ok ((sinkPieces writeRes ++ sinkPieces endRes).flatten))

/-! ## Tokenizer, selector matching and handler dispatch

The `tokenizer`, `selectors_vm` and `handlers_dispatcher` modules are not
part of this repository snapshot; they are modelled from spec.md §4.2-§4.4
for the constructs the claims exercise: text, comments, start tags with
attributes, end tags; type and attribute-presence simple selectors with
descendant and child combinators; per-selector element and comment
handlers invoked in selector-registration order, with mutations (tag
rename, comment-text replacement) applied at serialization time. -/

/-- An attribute of a start tag: name, and value when one was written. -/
structure Attr where
  name : List Char
  value : Option (List Char)
deriving DecidableEq, Repr

/-- Modelled from the spec (§3 "Lexeme"): the tokenizer output units the
claims exercise. A doctype is kept as its raw body between `<!` and `>`. -/
inductive Lexeme
  | text (s : List Char)
  | startTag (name : List Char) (attrs : List Attr) (selfClosing : Bool)
  | endTag (name : List Char)
  | comment (body : List Char)
  | doctype (body : List Char)
deriving DecidableEq, Repr

/-- HTML whitespace. -/
def isSpace (c : Char) : Bool :=
  c == ' ' || c == '\n' || c == '\t' || c == '\r'

/-- A character that may appear in a tag or attribute name. -/
def isNameChar (c : Char) : Bool :=
  !(isSpace c) && c != '>' && c != '/' && c != '='

/-- Split a comment tail at the first `-->`, returning the body and the
input after the close marker. -/
def splitComment : List Char → List Char × List Char
  | [] => ([], [])
  | '-' :: '-' :: '>' :: r => ([], r)
  | c :: r =>
    let (b, rest) := splitComment r
    (c :: b, rest)

/-- Modelled from the spec (§4.2): parse the attribute list of a start
tag up to and including the closing `>` (or `/>`), returning the
attributes, the self-closing flag, and the remaining input. Fuel-indexed
for structural recursion (one unit per attribute suffices). -/
def parseAttrs : Nat → List Char → List Attr × Bool × List Char
  | 0, rest => ([], false, rest)
  | fuel + 1, input =>
    let rest := input.dropWhile isSpace
    match rest with
    | [] => ([], false, [])
    | '>' :: r => ([], false, r)
    | '/' :: '>' :: r => ([], true, r)
    | '/' :: r => parseAttrs fuel r
    | _ =>
      let nm := rest.takeWhile isNameChar
      let rest1 := rest.dropWhile isNameChar
      match rest1 with
      | '=' :: '"' :: r =>
        let v := r.takeWhile (fun c => c != '"')
        let r2 := (r.dropWhile (fun c => c != '"')).drop 1
        let (as, sc, rr) := parseAttrs fuel r2
        ({ name := nm, value := some v } :: as, sc, rr)
      | '=' :: r =>
        let v := r.takeWhile (fun c => !(isSpace c) && c != '>')
        let r2 := r.dropWhile (fun c => !(isSpace c) && c != '>')
        let (as, sc, rr) := parseAttrs fuel r2
        ({ name := nm, value := some v } :: as, sc, rr)
      | _ =>
        let (as, sc, rr) := parseAttrs fuel rest1
        ({ name := nm, value := none } :: as, sc, rr)

/-- Modelled from the spec (§4.2): the streaming tokenizer on a complete
input, producing the lexemes the claims exercise. Fuel-indexed for
structural recursion (one unit per lexeme suffices since every lexeme
consumes at least one byte). -/
def tokenizeFuel : Nat → List Char → List Lexeme
  | 0, _ => []
  | _, [] => []
  | fuel + 1, input =>
    match input with
    | [] => []
    | '<' :: '!' :: '-' :: '-' :: r =>
      let (body, rest) := splitComment r
      .comment body :: tokenizeFuel fuel rest
    | '<' :: '!' :: r =>
      let body := r.takeWhile (fun c => c != '>')
      let r1 := (r.dropWhile (fun c => c != '>')).drop 1
      .doctype body :: tokenizeFuel fuel r1
    | '<' :: '/' :: r =>
      let nm := r.takeWhile isNameChar
      let r1 := (r.dropWhile (fun c => c != '>')).drop 1
      .endTag nm :: tokenizeFuel fuel r1
    | '<' :: r =>
      if (r.headD ' ').isAlpha then
        let nm := r.takeWhile isNameChar
        let r1 := r.dropWhile isNameChar
        let (attrs, sc, r2) := parseAttrs (r1.length + 1) r1
        .startTag nm attrs sc :: tokenizeFuel fuel r2
      else
        .text ['<'] :: tokenizeFuel fuel r
    | _ :: _ =>
      let t := input.takeWhile (fun c => c != '<')
      let r1 := input.dropWhile (fun c => c != '<')
      .text t :: tokenizeFuel fuel r1

/-- Tokenize a whole input (fuel instantiated at the input length). -/
def tokenize (input : List Char) : List Lexeme := tokenizeFuel input.length input

/-- Serialize one attribute back to markup. -/
def serializeAttr (a : Attr) : List Char :=
  [' '] ++ a.name ++
    (match a.value with
     | none => []
     | some v => ['=', '"'] ++ v ++ ['"'])

/-- Modelled from the spec (§4.6): the serializer emits each lexeme's
bytes (with any recorded mutations already applied to the lexeme). -/
def serializeLexeme : Lexeme → List Char
  | .text s => s
  | .comment b => ['<', '!', '-', '-'] ++ b ++ ['-', '-', '>']
  | .doctype b => ['<', '!'] ++ b ++ ['>']
  | .endTag n => ['<', '/'] ++ n ++ ['>']
  | .startTag n attrs sc =>
    ['<'] ++ n ++ (attrs.map serializeAttr).flatten ++
      (if sc then ['/'] else []) ++ ['>']

/-- The element data selector matching consults: local name and the names
of the present attributes. -/
structure ElemInfo where
  name : List Char
  attrNames : List (List Char)
deriving DecidableEq, Repr

/-- Modelled from the spec (§4.3): the simple selectors the claims use. -/
inductive SimpleSelector
  | typeSel (name : List Char)
  | attrPresent (name : List Char)
deriving DecidableEq, Repr

/-- A compound selector: a conjunction of simple selectors on one
element. -/
abbrev Compound := List SimpleSelector

/-- Modelled from the spec (§4.3): the combinators the claims use. -/
inductive Combinator
  | descendant
  | child
deriving DecidableEq, Repr

/-- A compiled complex selector: the rightmost (subject) compound plus
the chain of (combinator, compound) pairs toward the document root, in
right-to-left order — the compiled form the selector parser (absent from
src/) produces. -/
structure ComplexSelector where
  target : Compound
  chain : List (Combinator × Compound)
deriving DecidableEq, Repr

/-- Does an element satisfy one simple selector? -/
def matchesSimple (e : ElemInfo) : SimpleSelector → Bool
  | .typeSel n => e.name == n
  | .attrPresent a => e.attrNames.contains a

/-- Does an element satisfy every simple selector of a compound? -/
def matchesCompound (e : ElemInfo) (c : Compound) : Bool :=
  c.all (matchesSimple e)

/-- Modelled from the spec (§4.3 "Evaluation"): match the leftward chain
of a complex selector against the ancestor list (nearest ancestor
first); `child` consumes exactly the next ancestor, `descendant` any
strictly higher one. Fuel-indexed for structural recursion (every step
shortens the chain or the ancestor list, so `chain + ancestors + 1`
units suffice). -/
def matchChainFuel : Nat → List (Combinator × Compound) → List ElemInfo → Bool
  | 0, _, _ => false
  | _, [], _ => true
  | _ + 1, (.child, _) :: _, [] => false
  | fuel + 1, (.child, comp) :: rest, p :: anc =>
    matchesCompound p comp && matchChainFuel fuel rest anc
  | _ + 1, (.descendant, _) :: _, [] => false
  | fuel + 1, (.descendant, comp) :: rest, p :: anc =>
    (matchesCompound p comp && matchChainFuel fuel rest anc) ||
      matchChainFuel fuel ((.descendant, comp) :: rest) anc

/-- `matchChainFuel` with always-sufficient fuel. -/
def matchChain (chain : List (Combinator × Compound)) (anc : List ElemInfo) : Bool :=
  matchChainFuel (chain.length + anc.length + 1) chain anc

/-- Does a complex selector match an element given its ancestors
(nearest first)? -/
def selMatches (s : ComplexSelector) (anc : List ElemInfo) (e : ElemInfo) : Bool :=
  matchesCompound e s.target && matchChain s.chain anc

/-- The element events of a lexeme stream: for every start tag in
document order, the open-element stack at that point (nearest ancestor
first) and the element itself (spec §4.3: evaluation happens against the
live open-element stack as tags stream by). -/
def elementEventsAux : List ElemInfo → List Lexeme → List (List ElemInfo × ElemInfo)
  | _, [] => []
  | stack, l :: ls =>
    match l with
    | .startTag n attrs sc =>
      let e : ElemInfo := { name := n, attrNames := attrs.map Attr.name }
      (stack, e) :: elementEventsAux (if sc then stack else e :: stack) ls
    | .endTag _ => elementEventsAux (stack.drop 1) ls
    | _ => elementEventsAux stack ls

/-- Element events of a lexeme stream, starting with an empty stack. -/
def elementEvents (ls : List Lexeme) : List (List ElemInfo × ElemInfo) :=
  elementEventsAux [] ls

/-- Modelled from the spec (§4.4 "Ordering"): the handler locators fired
for one element — the registered selectors that match it, in
selector-registration order (locator = registration index). -/
def matchedLocators (sels : List ComplexSelector) (anc : List ElemInfo) (e : ElemInfo) :
    List Nat :=
  ((sels.enum).filter (fun p => selMatches p.2 anc e)).map (fun p => p.1)

/-- The full element-handler invocation log of a rewrite: element events
in document order, each contributing its matched locators. -/
def invocationLog (sels : List ComplexSelector) (html : List Char) : List Nat :=
  ((elementEvents (tokenize html)).map (fun ev => matchedLocators sels ev.1 ev.2)).flatten

/-- The input of scenario S5 / test `handler_invocation_order`. -/
def c4Input : List Char := "<div><span foo></span></div>".toList

/-- The five selectors of scenario S5, compiled: `div span`, `div > span`,
`span`, `[foo]`, `div span[foo]`, in registration order. -/
def c4Selectors : List ComplexSelector :=
  [{ target := [.typeSel "span".toList],
     chain := [(.descendant, [.typeSel "div".toList])] },
   { target := [.typeSel "span".toList],
     chain := [(.child, [.typeSel "div".toList])] },
   { target := [.typeSel "span".toList], chain := [] },
   { target := [.attrPresent "foo".toList], chain := [] },
   { target := [.typeSel "span".toList, .attrPresent "foo".toList],
     chain := [(.descendant, [.typeSel "div".toList])] }]

/-! ### Handler dispatch with mutations (spec §4.4) -/

/-- Modelled from the spec (§3 "HandlerLocator", §4.4): the handler
bundle installed for one selector — up to three handlers (element /
text / comment). The element handler may rename the tag
(`set_tag_name`) or fail; the text and comment handlers may replace the
chunk's text (`set_text`/`replace`) or fail. Errors are the opaque
handler error values, modelled by their message. -/
structure SelHandlers where
  sel : ComplexSelector
  onElement : Option (ElemInfo → Except String (Option (List Char)))
  onText : Option (List Char → Except String (List Char))
  onComment : Option (List Char → Except String (List Char))

/-- Modelled from the spec (§4.4): the three document-scope handler
slots — document-doctype, document-text, document-comments — invoked
irrespective of selectors. -/
structure DocumentHandlers where
  onDoctype : Option (List Char → Except String Unit)
  onText : Option (List Char → Except String (List Char))
  onComment : Option (List Char → Except String (List Char))

/-- No document-scope handlers registered. -/
def noDocumentHandlers : DocumentHandlers :=
  { onDoctype := none, onText := none, onComment := none }

/-- One open element during dispatch: its matching data, its (possibly
renamed) serialized tag name, and the locators of matched text and
comment handlers subscribed to its subtree. -/
structure Frame where
  info : ElemInfo
  outName : List Char
  textIdxs : List Nat
  commentIdxs : List Nat

/-- Run the element handlers of the matched locators in registration
order; each may rename the tag; the first error aborts. -/
def runElementHandlers (matched : List (Nat × SelHandlers)) (e : ElemInfo)
    (curName : List Char) : Except String (List Char) :=
  match matched with
  | [] => .ok curName
  | (_, h) :: rest =>
    match h.onElement with
    | none => runElementHandlers rest e curName
    | some f =>
      match f e with
      | .error msg => .error msg
      | .ok none => runElementHandlers rest e curName
      | .ok (some nn) => runElementHandlers rest e nn

/-- Run the comment handlers with the given locators in ascending
(registration) order on a comment body; the first error aborts. -/
def runCommentHandlers (hs : List SelHandlers) (idxs : List Nat) (body : List Char) :
    Except String (List Char) :=
  match idxs with
  | [] => .ok body
  | i :: rest =>
    match (hs.get? i).bind SelHandlers.onComment with
    | none => runCommentHandlers hs rest body
    | some f =>
      match f body with
      | .error msg => .error msg
      | .ok nb => runCommentHandlers hs rest nb

/-- Run the per-selector text handlers with the given locators in
ascending (registration) order on a text chunk; the first error aborts. -/
def runTextHandlers (hs : List SelHandlers) (idxs : List Nat) (body : List Char) :
    Except String (List Char) :=
  match idxs with
  | [] => .ok body
  | i :: rest =>
    match (hs.get? i).bind SelHandlers.onText with
    | none => runTextHandlers hs rest body
    | some f =>
      match f body with
      | .error msg => .error msg
      | .ok nb => runTextHandlers hs rest nb

/-- Run the document-scope text handler, when one is registered. -/
def runDocText (dhs : DocumentHandlers) (s : List Char) : Except String (List Char) :=
  match dhs.onText with
  | none => .ok s
  | some f => f s

/-- Run the document-scope comment handler, when one is registered. -/
def runDocComment (dhs : DocumentHandlers) (s : List Char) : Except String (List Char) :=
  match dhs.onComment with
  | none => .ok s
  | some f => f s

/-- Run the document-scope doctype handler, when one is registered. -/
def runDocDoctype (dhs : DocumentHandlers) (s : List Char) : Except String Unit :=
  match dhs.onDoctype with
  | none => .ok ()
  | some f => f s

/-- Modelled from the spec (§4.4-§4.6): dispatch a lexeme stream against
the registered per-selector handler bundles and the document-scope
handlers, applying mutations at serialization time. Text and comments
inside a matched element run that element's text/comment handlers;
document-scope handlers run on every doctype/text/comment irrespective
of selectors. A handler error surfaces as `ContentHandlerError` carrying
the handler's error value, and nothing further is emitted (spec §7). -/
def runRewriteAux (hs : List SelHandlers) (dhs : DocumentHandlers) :
    List Frame → List Lexeme → Except RewritingError (List Char)
  | _, [] => .ok []
  | stack, lx :: rest =>
    match lx with
    | .text s =>
      match runDocText dhs s with
      | .error msg => .error (.ContentHandlerError msg)
      | .ok s1 =>
        let active := (List.range hs.length).filter
          (fun i => ((stack.map Frame.textIdxs).flatten).contains i)
        match runTextHandlers hs active s1 with
        | .error msg => .error (.ContentHandlerError msg)
        | .ok s2 =>
          match runRewriteAux hs dhs stack rest with
          | .error e => .error e
          | .ok out => .ok (s2 ++ out)
    | .comment body =>
      match runDocComment dhs body with
      | .error msg => .error (.ContentHandlerError msg)
      | .ok b1 =>
        let active := (List.range hs.length).filter
          (fun i => ((stack.map Frame.commentIdxs).flatten).contains i)
        match runCommentHandlers hs active b1 with
        | .error msg => .error (.ContentHandlerError msg)
        | .ok nb =>
          match runRewriteAux hs dhs stack rest with
          | .error e => .error e
          | .ok out => .ok (serializeLexeme (.comment nb) ++ out)
    | .doctype body =>
      match runDocDoctype dhs body with
      | .error msg => .error (.ContentHandlerError msg)
      | .ok _ =>
        match runRewriteAux hs dhs stack rest with
        | .error e => .error e
        | .ok out => .ok (serializeLexeme (.doctype body) ++ out)
    | .startTag n attrs sc =>
      let e : ElemInfo := { name := n, attrNames := attrs.map Attr.name }
      let anc := stack.map Frame.info
      let matched := (hs.enum).filter (fun p => selMatches p.2.sel anc e)
      match runElementHandlers matched e n with
      | .error msg => .error (.ContentHandlerError msg)
      | .ok outName =>
        let tIdxs := (matched.filter (fun p => p.2.onText.isSome)).map (fun p => p.1)
        let cIdxs := (matched.filter (fun p => p.2.onComment.isSome)).map (fun p => p.1)
        let frames := if sc then stack else
          { info := e, outName := outName, textIdxs := tIdxs,
            commentIdxs := cIdxs } :: stack
        match runRewriteAux hs dhs frames rest with
        | .error er => .error er
        | .ok out => .ok (serializeLexeme (.startTag outName attrs sc) ++ out)
    | .endTag n =>
      match stack with
      | [] =>
        match runRewriteAux hs dhs [] rest with
        | .error e => .error e
        | .ok out => .ok (serializeLexeme (.endTag n) ++ out)
      | f :: stackTail =>
        match runRewriteAux hs dhs stackTail rest with
        | .error e => .error e
        | .ok out => .ok (serializeLexeme (.endTag f.outName) ++ out)

/-- Rewrite a whole input against per-selector handler bundles and
document-scope handlers (tokenize, dispatch, serialize). -/
def runRewriteWithDocument (hs : List SelHandlers) (dhs : DocumentHandlers)
    (html : List Char) : Except RewritingError (List Char) :=
  runRewriteAux hs dhs [] (tokenize html)

/-- Rewrite a whole input against per-selector handler bundles only. -/
def runRewrite (hs : List SelHandlers) (html : List Char) :
    Except RewritingError (List Char) :=
  runRewriteWithDocument hs noDocumentHandlers html

/-- The handlers of scenario S2 / test `rewrite_html_str`: an element
handler on `div` renaming the tag to `span`, and a comment handler on
`div` setting the comment text to `hello`, registered in that order. -/
def c7Handlers : List SelHandlers :=
  [{ sel := { target := [.typeSel "div".toList], chain := [] },
     onElement := some (fun _ => .ok (some "span".toList)),
     onText := none,
     onComment := none },
   { sel := { target := [.typeSel "div".toList], chain := [] },
     onElement := none,
     onText := none,
     onComment := some (fun _ => .ok "hello".toList) }]

/-- The universal selector `*`: an empty compound matches every element
(test `content_handler_error_propagation` registers its element-scope
handlers on `*`). -/
def selUniversal : ComplexSelector := { target := [], chain := [] }

/-- The input of test `content_handler_error_propagation` (its two write
chunks concatenated): a document-scope comment and text, then an element
containing a comment and text. -/
def c6Input : List Char :=
  "<!--doc comment--> Doc text<div><!--el comment-->El text</div>".toList

/-- A doctype-bearing input for the document-doctype handler case. -/
def c6DoctypeInput : List Char := "<!doctype html><div>x</div>".toList

/-- A handler set whose element handler on `div` fails with the message
used by the `content_handler_error_propagation` test. -/
def c6FailingHandlers : List SelHandlers :=
  [{ sel := { target := [.typeSel "div".toList], chain := [] },
     onElement := some (fun _ => .error "Error in element handler"),
     onText := none,
     onComment := none }]

/-- Document-scope comment handler failing as in the source test. -/
def c6DocCommentHandlers : DocumentHandlers :=
  { onDoctype := none, onText := none,
    onComment := some (fun _ => .error "Error in doc comment handler") }

/-- Document-scope text handler failing as in the source test. -/
def c6DocTextHandlers : DocumentHandlers :=
  { onDoctype := none,
    onText := some (fun _ => .error "Error in doc text handler"),
    onComment := none }

/-- Document-scope doctype handler failing as in the source test. -/
def c6DoctypeHandlers : DocumentHandlers :=
  { onDoctype := some (fun _ => .error "Error in doctype handler"),
    onText := none, onComment := none }

/-- Universal-selector element handler failing as in the source test. -/
def c6ElemHandlers : List SelHandlers :=
  [{ sel := selUniversal,
     onElement := some (fun _ => .error "Error in element handler"),
     onText := none, onComment := none }]

/-- Universal-selector comment handler failing as in the source test. -/
def c6ElemCommentHandlers : List SelHandlers :=
  [{ sel := selUniversal, onElement := none, onText := none,
     onComment := some (fun _ => .error "Error in element comment handler") }]

/-- Universal-selector text handler failing as in the source test. -/
def c6ElemTextHandlers : List SelHandlers :=
  [{ sel := selUniversal, onElement := none,
     onText := some (fun _ => .error "Error in element text handler"),
     onComment := none }]

end LolHtml

open LolHtml

/-- **C2.** After any `write` or `end` call that returns a `RewritingError`,
every subsequent `write` or `end` call aborts the caller (panics) instead of
returning; a `write` after a successful `end`, or a second `end`, likewise
aborts. Stated over the embedded façade for every reachable state `r` and
every behaviour `s`, `s'` of the underlying stream. -/
theorem c2_poisoned_calls_abort :
    (∀ (r r' : HtmlRewriter) (s : Except RewritingError Unit) (e : RewritingError),
      r.write s = .returned (r', .error e) →
      ∀ s', (r'.write s').isPanicked = true ∧ (r'.endCall s').isPanicked = true) ∧
    (∀ (r r' : HtmlRewriter) (s : Except RewritingError Unit) (e : RewritingError),
      r.endCall s = .returned (r', .error e) →
      ∀ s', (r'.write s').isPanicked = true ∧ (r'.endCall s').isPanicked = true) ∧
    (∀ (r r' : HtmlRewriter) (s : Except RewritingError Unit),
      r.endCall s = .returned (r', .ok ()) →
      ∀ s', (r'.write s').isPanicked = true ∧ (r'.endCall s').isPanicked = true) := by
  refine ⟨?_, ?_, ?_⟩
  · intro r r' s e h s'
    unfold HtmlRewriter.write at h
    by_cases hf : r.finished <;> simp [hf] at h
    by_cases hp : r.poisoned <;> simp [hp] at h
    obtain ⟨hr, hs⟩ := h
    subst hr
    subst hs
    simp [HtmlRewriter.write, HtmlRewriter.endCall, CallOutcome.isPanicked, Except.isOk,
      Except.toBool]
  · intro r r' s e h s'
    unfold HtmlRewriter.endCall at h
    by_cases hf : r.finished <;> simp [hf] at h
    by_cases hp : r.poisoned <;> simp [hp] at h
    obtain ⟨hr, hs⟩ := h
    subst hr
    subst hs
    simp [HtmlRewriter.write, HtmlRewriter.endCall, CallOutcome.isPanicked, Except.isOk,
      Except.toBool]
  · intro r r' s h s'
    unfold HtmlRewriter.endCall at h
    by_cases hf : r.finished <;> simp [hf] at h
    by_cases hp : r.poisoned <;> simp [hp] at h
    obtain ⟨hr, hs⟩ := h
    subst hr
    simp [HtmlRewriter.write, HtmlRewriter.endCall, CallOutcome.isPanicked]

/-- **C2 witness.** A fresh rewriter whose first `write` hits a content-handler
error: both follow-up calls abort. -/
theorem c2_poisoned_calls_abort_witness :
    (({ finished := false, poisoned := true } : HtmlRewriter).write (.ok ())).isPanicked = true ∧
    (({ finished := false, poisoned := true } : HtmlRewriter).endCall (.ok ())).isPanicked = true :=
  c2_poisoned_calls_abort.1
    { finished := false, poisoned := false }
    { finished := false, poisoned := true }
    (.error (.ContentHandlerError "boom")) (.ContentHandlerError "boom")
    rfl (.ok ())

/-- **C9.** `HtmlRewriter::end` sets `finished` before driving the stream, so
even when `end` returns a `RewritingError`, the resulting state has
`finished = true` and every later `end` aborts with the message
"Stream was ended twice." (the finished check fires before the poisoned
check); a failed `end` can never be retried. -/
theorem c9_end_sets_finished_first :
    ∀ (r r' : HtmlRewriter) (s : Except RewritingError Unit) (e : RewritingError),
      r.endCall s = .returned (r', .error e) →
      r'.finished = true ∧
      ∀ s', r'.endCall s' = .panicked "Stream was ended twice." := by
  intro r r' s e h
  unfold HtmlRewriter.endCall at h
  by_cases hf : r.finished <;> simp [hf] at h
  by_cases hp : r.poisoned <;> simp [hp] at h
  obtain ⟨hr, hs⟩ := h
  subst hr
  exact ⟨rfl, fun s' => by simp [HtmlRewriter.endCall]⟩

/-- **C9 witness.** A fresh rewriter whose `end` fails with a memory-limit
error: the state is finished and the retry panics with the twice-ended
message. -/
theorem c9_end_sets_finished_first_witness :
    ({ finished := true, poisoned := true } : HtmlRewriter).finished = true ∧
    ∀ s', ({ finished := true, poisoned := true } : HtmlRewriter).endCall s' =
      .panicked "Stream was ended twice." :=
  c9_end_sets_finished_first
    { finished := false, poisoned := false }
    { finished := true, poisoned := true }
    (.error (.MemoryLimitExceeded .mk)) (.MemoryLimitExceeded .mk)
    rfl

/-- **C5.** `HtmlRewriter::try_new` returns `Err(UnknownEncoding)` when the
label matches no standard encoding, `Err(NonAsciiCompatibleEncoding)` when
it names a non-ASCII-compatible encoding, and in either case fails before
any rewriter state is created; on success the output sink has never been
invoked (the recorded sink log is empty) and the state is fresh. -/
theorem c5_try_new_encoding_rejection :
    (∀ label, Encoding.forLabelNoReplacement label = none →
      HtmlRewriter.tryNew label = .error .UnknownEncoding) ∧
    (∀ label e, Encoding.forLabelNoReplacement label = some e →
      e.isAsciiCompatible = false →
      HtmlRewriter.tryNew label = .error .NonAsciiCompatibleEncoding) ∧
    (∀ label r sinkLog, HtmlRewriter.tryNew label = .ok (r, sinkLog) →
      sinkLog = [] ∧ r = { finished := false, poisoned := false }) := by
  refine ⟨?_, ?_, ?_⟩
  · intro label h
    simp [HtmlRewriter.tryNew, tryEncodingFromStr, h]
  · intro label e hl ha
    simp [HtmlRewriter.tryNew, tryEncodingFromStr, hl, ha]
  · intro label r sinkLog h
    unfold HtmlRewriter.tryNew at h
    cases he : tryEncodingFromStr label with
    | error e => rw [he] at h; exact absurd h (by simp)
    | ok e =>
      rw [he] at h
      simp only [Except.ok.injEq, Prod.mk.injEq] at h
      exact ⟨h.2.symm, h.1.symm⟩

/-- **C5 witness.** The two construction failures from the source tests
(`unknown_encoding` with label "hey-yo", `non_ascii_compatible_encoding`
with "utf-16be"), and a successful "utf-8" construction with an untouched
sink. -/
theorem c5_try_new_encoding_rejection_witness :
    HtmlRewriter.tryNew "hey-yo" = .error .UnknownEncoding ∧
    HtmlRewriter.tryNew "utf-16be" = .error .NonAsciiCompatibleEncoding ∧
    (([] : List (List Char)) = [] ∧
      ({ finished := false, poisoned := false } : HtmlRewriter) =
        { finished := false, poisoned := false }) :=
  ⟨c5_try_new_encoding_rejection.1 "hey-yo" rfl,
   c5_try_new_encoding_rejection.2.1 "utf-16be" .utf16be rfl rfl,
   c5_try_new_encoding_rejection.2.2 "utf-8"
     { finished := false, poisoned := false } [] rfl⟩

/-- **C8.** The label "replacement" fails with `UnknownEncoding` (not
`NonAsciiCompatibleEncoding`): the lookup `for_label_no_replacement`
excludes the replacement encoding before the ASCII-compatibility check
runs. `NonAsciiCompatibleEncoding` is returned exactly for labels that
resolve to a known encoding that is not ASCII-compatible. -/
theorem c8_replacement_label_unknown :
    tryEncodingFromStr "replacement" = .error .UnknownEncoding ∧
    ∀ label, tryEncodingFromStr label = .error .NonAsciiCompatibleEncoding ↔
      ∃ e, Encoding.forLabelNoReplacement label = some e ∧
        e.isAsciiCompatible = false := by
  refine ⟨rfl, ?_⟩
  intro label
  constructor
  · intro h
    unfold tryEncodingFromStr at h
    cases hl : Encoding.forLabelNoReplacement label with
    | none => rw [hl] at h; exact absurd h (by simp)
    | some e =>
      rw [hl] at h
      by_cases ha : e.isAsciiCompatible = true
      · simp [ha] at h
      · exact ⟨e, rfl, by simpa using ha⟩
  · rintro ⟨e, hl, ha⟩
    unfold tryEncodingFromStr
    rw [hl]
    simp [ha]

/-- **C8 witness.** "utf-16be" resolves to the known, non-ASCII-compatible
UTF-16BE encoding and is rejected with `NonAsciiCompatibleEncoding`. -/
theorem c8_replacement_label_unknown_witness :
    tryEncodingFromStr "utf-16be" = .error .NonAsciiCompatibleEncoding :=
  (c8_replacement_label_unknown.2 "utf-16be").mpr ⟨.utf16be, rfl, rfl⟩

/-- Helper: a successful `TransformStream.write` flushes the consumed
prefix of `buffer ++ chunk` and keeps the rest buffered. -/
theorem transformStream_write_ok (s : TransformStream) (c : List Char)
    (p : TransformStream × List Char) (h : s.write c = .ok p) :
    p.1.buffer = (s.buffer ++ c).drop (scanConsumed (s.buffer ++ c)) ∧
    p.2 = (s.buffer ++ c).take (scanConsumed (s.buffer ++ c)) := by
  unfold TransformStream.write at h
  cases hi : s.limiter.increase c.length with
  | error e => rw [hi] at h; exact absurd h (by simp)
  | ok lim =>
    rw [hi] at h
    simp only [Except.ok.injEq] at h
    subst h
    exact ⟨rfl, rfl⟩

/-- Helper: over any successful sequence of chunk writes, the bytes seen
so far split exactly into flushed output plus the live buffer. -/
theorem runChunks_ok (cs : List (List Char)) :
    ∀ (s s' : TransformStream) (out : List Char),
      runChunks s cs = .ok (s', out) →
      s.buffer ++ cs.flatten = out ++ s'.buffer := by
  induction cs with
  | nil =>
    intro s s' out h
    unfold runChunks at h
    simp only [Except.ok.injEq, Prod.mk.injEq] at h
    obtain ⟨hs, ho⟩ := h
    subst hs
    subst ho
    simp
  | cons c rest ih =>
    intro s s' out h
    unfold runChunks at h
    cases hw : s.write c with
    | error e => rw [hw] at h; exact absurd h (by simp)
    | ok p =>
      rw [hw] at h
      obtain ⟨s1, o1⟩ := p
      dsimp only at h
      cases hr : runChunks s1 rest with
      | error e => rw [hr] at h; exact absurd h (by simp)
      | ok q =>
        rw [hr] at h
        obtain ⟨s2, outs⟩ := q
        dsimp only at h
        simp only [Except.ok.injEq, Prod.mk.injEq] at h
        obtain ⟨hs2, ho⟩ := h
        subst hs2
        subst ho
        obtain ⟨hb, ho1⟩ := transformStream_write_ok s c (s1, o1) hw
        have hih := ih s1 s2 outs hr
        simp only at hb ho1
        subst ho1
        calc s.buffer ++ (c :: rest).flatten
            = (s.buffer ++ c) ++ rest.flatten := by simp [List.append_assoc]
          _ = ((s.buffer ++ c).take (scanConsumed (s.buffer ++ c)) ++
                (s.buffer ++ c).drop (scanConsumed (s.buffer ++ c))) ++ rest.flatten := by
              rw [List.take_append_drop]
          _ = (s.buffer ++ c).take (scanConsumed (s.buffer ++ c)) ++
                (s1.buffer ++ rest.flatten) := by rw [hb, List.append_assoc]
          _ = (s.buffer ++ c).take (scanConsumed (s.buffer ++ c)) ++
                (outs ++ s2.buffer) := by rw [hih]
          _ = ((s.buffer ++ c).take (scanConsumed (s.buffer ++ c)) ++ outs) ++
                s2.buffer := by simp [List.append_assoc]

/-- **C1.** With no content handlers registered, whenever the rewriter run
succeeds its byte output equals its byte input, for every memory ceiling
and every chunking of the input. Since this holds for arbitrary byte
sequences it holds in particular for the encoded form of any document
under any ASCII-compatible encoding, so the output round-trips through
the encoding exactly as the input does. -/
theorem c1_no_handlers_identity :
    ∀ (maxAllowed : Nat) (chunks : List (List Char)) (out : List Char),
      rewriteNoHandlers maxAllowed chunks = .ok out → out = chunks.flatten := by
  intro m chunks out h
  unfold rewriteNoHandlers at h
  cases hr : runChunks (TransformStream.new m) chunks with
  | error e => rw [hr] at h; exact absurd h (by simp)
  | ok p =>
    rw [hr] at h
    obtain ⟨s, o⟩ := p
    simp only [Except.ok.injEq] at h
    subst h
    have hinv := runChunks_ok chunks (TransformStream.new m) s o hr
    simp only [TransformStream.new, List.nil_append] at hinv
    simp [TransformStream.endStream, hinv]

/-- **C1 witness.** The input `<p>hello</p>` split into two chunks is
reproduced verbatim. -/
theorem c1_no_handlers_identity_witness :
    "<p>hello</p>".toList = [("<p>he".toList : List Char), "llo</p>".toList].flatten :=
  c1_no_handlers_identity 1000 ["<p>he".toList, "llo</p>".toList] "<p>hello</p>".toList rfl

/-- **C3.** Scenario S6 / test `buffer_capacity_limit`: with
`max_allowed_memory_usage = 100` and no preallocated buffer, writing
`<img alt="` + 50×`l` succeeds (all 60 bytes stay buffered inside the
unterminated tag), and the second write of 50×`r` + `"/>` returns
`MemoryLimitExceeded`. In general tracked memory never exceeds the
ceiling, and exceeding it yields `MemoryLimitExceeded` deterministically
(`increase` fails iff `current + n > max`). -/
theorem c3_memory_limit_exceeded :
    ((TransformStream.new 100).write c3chunk1 =
        .ok ({ limiter := { currentUsage := 60, maxAllowed := 100 },
               buffer := c3chunk1 }, []) ∧
      ({ limiter := { currentUsage := 60, maxAllowed := 100 },
         buffer := c3chunk1 } : TransformStream).write c3chunk2 =
        .error (.MemoryLimitExceeded .mk)) ∧
    (∀ (l : MemoryLimiter) (n : Nat) (l' : MemoryLimiter),
      l.increase n = .ok l' → l'.currentUsage ≤ l'.maxAllowed) ∧
    (∀ (l : MemoryLimiter) (n : Nat),
      l.increase n = .error .mk ↔ l.currentUsage + n > l.maxAllowed) := by
  refine ⟨⟨rfl, rfl⟩, ?_, ?_⟩
  · intro l n l' h
    unfold MemoryLimiter.increase at h
    by_cases hc : l.currentUsage + n > l.maxAllowed
    · rw [if_pos hc] at h; exact absurd h (by simp)
    · rw [if_neg hc] at h
      simp only [Except.ok.injEq] at h
      subst h
      dsimp only
      omega
  · intro l n
    unfold MemoryLimiter.increase
    by_cases hc : l.currentUsage + n > l.maxAllowed
    · simp [hc]
    · simp [hc]

/-- **C3 witness.** The successful first increase lands at 60 ≤ 100, and
the limiter at 60/100 deterministically rejects 53 more bytes. -/
theorem c3_memory_limit_exceeded_witness :
    ({ currentUsage := 60, maxAllowed := 100 } : MemoryLimiter).currentUsage ≤
      ({ currentUsage := 60, maxAllowed := 100 } : MemoryLimiter).maxAllowed ∧
    ({ currentUsage := 60, maxAllowed := 100 } : MemoryLimiter).increase 53 =
      .error .mk :=
  ⟨c3_memory_limit_exceeded.2.1 { currentUsage := 0, maxAllowed := 100 } 60
      { currentUsage := 60, maxAllowed := 100 } rfl,
   (c3_memory_limit_exceeded.2.2 { currentUsage := 60, maxAllowed := 100 } 53).mpr
      (by decide)⟩

/-- **C10.** `rewrite_str` always constructs the rewriter with the UTF-8
encoding, so construction never fails (no `EncodingError` can escape; its
`unwrap` never panics, and the façade asserts never fire either); when it
returns `Ok` the result is exactly the concatenation of all sink output
(valid UTF-8 by the output representation). -/
theorem c10_rewrite_str_utf8 :
    (tryEncodingFromStr "utf-8" = .ok .utf8) ∧
    (∀ w e, (rewriteStr w e).isPanicked = false) ∧
    (∀ w e out, rewriteStr w e = .returned (.ok out) →
      ∃ pw pe, w = .ok pw ∧ e = .ok pe ∧ out = (pw ++ pe).flatten) := by
  refine ⟨rfl, ?_, ?_⟩
  · intro w e
    cases w with
    | error ew =>
      rw [show rewriteStr (.error ew) e = .returned (.error ew) from rfl]
      rfl
    | ok pw =>
      cases e with
      | error ee =>
        rw [show rewriteStr (.ok pw) (.error ee) = .returned (.error ee) from rfl]
        rfl
      | ok pe =>
        rw [show rewriteStr (.ok pw) (.ok pe) =
          .returned (.ok ((pw ++ pe).flatten)) from rfl]
        rfl
  · intro w e out h
    cases w with
    | error ew =>
      rw [show rewriteStr (.error ew) e = .returned (.error ew) from rfl] at h
      simp at h
    | ok pw =>
      cases e with
      | error ee =>
        rw [show rewriteStr (.ok pw) (.error ee) = .returned (.error ee) from rfl] at h
        simp at h
      | ok pe =>
        rw [show rewriteStr (.ok pw) (.ok pe) =
          .returned (.ok ((pw ++ pe).flatten)) from rfl] at h
        simp only [CallOutcome.returned.injEq, Except.ok.injEq] at h
        exact ⟨pw, pe, rfl, rfl, h.symm⟩

/-- **C10 witness.** A run whose `write` emits "ab" and whose `end` emits
"cd" returns `Ok "abcd"`, the concatenation of the sink output. -/
theorem c10_rewrite_str_utf8_witness :
    ∃ pw pe,
      (Except.ok ["ab".toList] : Except RewritingError (List (List Char))) = .ok pw ∧
      (Except.ok ["cd".toList] : Except RewritingError (List (List Char))) = .ok pe ∧
      "abcd".toList = (pw ++ pe).flatten :=
  c10_rewrite_str_utf8.2.2 (.ok ["ab".toList]) (.ok ["cd".toList]) "abcd".toList rfl

/-- Helper: every locator extracted from `enumFrom n` is at least `n`. -/
theorem mem_filterMapFst_enumFrom_ge (p : Nat × ComplexSelector → Bool) :
    ∀ (l : List ComplexSelector) (n k : Nat),
      k ∈ (((l.enumFrom n).filter p).map (fun q => q.1)) → n ≤ k := by
  intro l
  induction l with
  | nil => intro n k h; simp [List.enumFrom] at h
  | cons a tl ih =>
    intro n k h
    simp only [List.enumFrom] at h
    by_cases hp : p (n, a) = true
    · rw [List.filter_cons_of_pos hp, List.map_cons] at h
      rcases List.mem_cons.mp h with h1 | h2
      · omega
      · have := ih (n + 1) k h2
        omega
    · rw [List.filter_cons_of_neg (by simpa using hp)] at h
      have := ih (n + 1) k h
      omega

/-- Helper: locators extracted from `enumFrom n` are strictly
increasing — registration order. -/
theorem pairwise_filterMapFst_enumFrom (p : Nat × ComplexSelector → Bool) :
    ∀ (l : List ComplexSelector) (n : Nat),
      (((l.enumFrom n).filter p).map (fun q => q.1)).Pairwise (· < ·) := by
  intro l
  induction l with
  | nil => intro n; simp [List.enumFrom]
  | cons a tl ih =>
    intro n
    simp only [List.enumFrom]
    by_cases hp : p (n, a) = true
    · rw [List.filter_cons_of_pos hp, List.map_cons]
      refine List.Pairwise.cons ?_ (ih (n + 1))
      intro k hk
      have := mem_filterMapFst_enumFrom_ge p tl (n + 1) k hk
      omega
    · rw [List.filter_cons_of_neg (by simpa using hp)]
      exact ih (n + 1)

/-- **C4.** Scenario S5 / test `handler_invocation_order`: rewriting
`<div><span foo></span></div>` with the selectors `div span`,
`div > span`, `span`, `[foo]`, `div span[foo]` fires the element
handlers exactly in registration order `[0,1,2,3,4]`; in general the
invocation log is the document-order concatenation of per-element logs,
and each per-element log is strictly increasing in registration order —
a fixed order determined by document order, then selector-registration
order. -/
theorem c4_handler_invocation_order :
    invocationLog c4Selectors c4Input = [0, 1, 2, 3, 4] ∧
    (∀ (sels : List ComplexSelector) (anc : List ElemInfo) (e : ElemInfo),
      (matchedLocators sels anc e).Pairwise (· < ·)) ∧
    (∀ (sels : List ComplexSelector) (html : List Char),
      invocationLog sels html =
        ((elementEvents (tokenize html)).map
          (fun ev => matchedLocators sels ev.1 ev.2)).flatten) := by
  refine ⟨by decide, ?_, fun _ _ => rfl⟩
  intro sels anc e
  unfold matchedLocators
  simp only [List.enum]
  exact pairwise_filterMapFst_enumFrom _ sels 0

/-- **C7.** Scenario S2 / test `rewrite_html_str`: rewriting
`<!-- 42 --><div><!--hi--></div>` with an element handler on `div`
renaming the tag to `span` and a comment handler on `div` setting the
comment text to `hello` yields exactly
`<!-- 42 --><span><!--hello--></span>` — the comment outside the matched
element is untouched, the one inside is rewritten, and the end tag
follows the rename. -/
theorem c7_tag_rename_and_comment_text :
    runRewrite c7Handlers "<!-- 42 --><div><!--hi--></div>".toList =
      .ok "<!-- 42 --><span><!--hello--></span>".toList := rfl

/-- Helper: the dispatch runner only ever fails with
`ContentHandlerError` — every error path, whether from a per-selector
element/text/comment handler or a document-scope doctype/text/comment
handler, wraps a handler's error value. -/
theorem runRewriteAux_error_shape (hs : List SelHandlers) (dhs : DocumentHandlers) :
    ∀ (lexs : List Lexeme) (stack : List Frame) (e : RewritingError),
      runRewriteAux hs dhs stack lexs = .error e →
      ∃ msg, e = .ContentHandlerError msg := by
  intro lexs
  induction lexs with
  | nil => intro stack e h; simp [runRewriteAux] at h
  | cons lx rest ih =>
    intro stack e h
    cases lx with
    | text s =>
      unfold runRewriteAux at h
      dsimp only at h
      split at h
      next msg hd =>
        simp only [Except.error.injEq] at h
        exact ⟨msg, h.symm⟩
      next s1 hd =>
        split at h
        next msg ht =>
          simp only [Except.error.injEq] at h
          exact ⟨msg, h.symm⟩
        next s2 ht =>
          split at h
          next e2 hr =>
            simp only [Except.error.injEq] at h
            subst h
            exact ih stack e2 hr
          next out hr => simp at h
    | comment body =>
      unfold runRewriteAux at h
      dsimp only at h
      split at h
      next msg hd =>
        simp only [Except.error.injEq] at h
        exact ⟨msg, h.symm⟩
      next b1 hd =>
        split at h
        next msg hc =>
          simp only [Except.error.injEq] at h
          exact ⟨msg, h.symm⟩
        next nb hc =>
          split at h
          next e2 hr =>
            simp only [Except.error.injEq] at h
            subst h
            exact ih stack e2 hr
          next out hr => simp at h
    | doctype body =>
      unfold runRewriteAux at h
      dsimp only at h
      split at h
      next msg hd =>
        simp only [Except.error.injEq] at h
        exact ⟨msg, h.symm⟩
      next u hd =>
        split at h
        next e2 hr =>
          simp only [Except.error.injEq] at h
          subst h
          exact ih stack e2 hr
        next out hr => simp at h
    | startTag n attrs sc =>
      unfold runRewriteAux at h
      dsimp only at h
      split at h
      next msg he =>
        simp only [Except.error.injEq] at h
        exact ⟨msg, h.symm⟩
      next outName he =>
        split at h
        next e2 hr =>
          simp only [Except.error.injEq] at h
          subst h
          exact ih _ e2 hr
        next out hr => simp at h
    | endTag n =>
      unfold runRewriteAux at h
      cases stack with
      | nil =>
        dsimp only at h
        split at h
        next e2 hr =>
          simp only [Except.error.injEq] at h
          subst h
          exact ih [] e2 hr
        next out hr => simp at h
      | cons f stackTail =>
        dsimp only at h
        split at h
        next e2 hr =>
          simp only [Except.error.injEq] at h
          subst h
          exact ih stackTail e2 hr
        next out hr => simp at h

/-- **C6.** Whenever any content handler fails during a rewrite — an
element, text, or comment handler of any selector, or a document-scope
doctype/text/comment handler — the run returns `ContentHandlerError`
carrying the handler's error value unchanged (its displayed message
equals the handler's original message, per `#[error("{0}")]`), and
feeding that error through the façade's `guarded!` leaves the rewriter
poisoned. The six concrete conjuncts mirror the six cases of the source
test `content_handler_error_propagation`, one per handler kind. -/
theorem c6_content_handler_error :
    (∀ (hs : List SelHandlers) (dhs : DocumentHandlers) (html : List Char)
        (e : RewritingError),
      runRewriteWithDocument hs dhs html = .error e →
      ∃ msg, e = .ContentHandlerError msg ∧ RewritingError.display e = msg) ∧
    (runRewriteWithDocument [] c6DocCommentHandlers c6Input =
        .error (.ContentHandlerError "Error in doc comment handler") ∧
      runRewriteWithDocument [] c6DocTextHandlers c6Input =
        .error (.ContentHandlerError "Error in doc text handler") ∧
      runRewriteWithDocument [] c6DoctypeHandlers c6DoctypeInput =
        .error (.ContentHandlerError "Error in doctype handler") ∧
      runRewriteWithDocument c6ElemHandlers noDocumentHandlers c6Input =
        .error (.ContentHandlerError "Error in element handler") ∧
      runRewriteWithDocument c6ElemCommentHandlers noDocumentHandlers c6Input =
        .error (.ContentHandlerError "Error in element comment handler") ∧
      runRewriteWithDocument c6ElemTextHandlers noDocumentHandlers c6Input =
        .error (.ContentHandlerError "Error in element text handler")) ∧
    (∀ (r : HtmlRewriter) (e : RewritingError),
      r.finished = false → r.poisoned = false →
      r.write (.error e) =
        .returned ({ finished := false, poisoned := true }, .error e)) := by
  refine ⟨?_, ⟨rfl, rfl, rfl, rfl, rfl, rfl⟩, ?_⟩
  · intro hs dhs html e h
    obtain ⟨msg, hm⟩ := runRewriteAux_error_shape hs dhs (tokenize html) [] e h
    subst hm
    exact ⟨msg, rfl, rfl⟩
  · intro r e hf hp
    simp [HtmlRewriter.write, hf, hp, Except.isOk, Except.toBool]

/-- **C6 witness.** A `div` element handler failing with
"Error in element handler" on input `<div>x</div>`: the error surfaces as
`ContentHandlerError` with the same displayed message, and the façade
poisons the instance. -/
theorem c6_content_handler_error_witness :
    (∃ msg, RewritingError.ContentHandlerError "Error in element handler" =
        .ContentHandlerError msg ∧
      RewritingError.display (.ContentHandlerError "Error in element handler") = msg) ∧
    (({ finished := false, poisoned := false } : HtmlRewriter).write
        (.error (.ContentHandlerError "Error in element handler")) =
      .returned ({ finished := false, poisoned := true },
        .error (.ContentHandlerError "Error in element handler"))) :=
  ⟨c6_content_handler_error.1 c6FailingHandlers noDocumentHandlers
      "<div>x</div>".toList
      (.ContentHandlerError "Error in element handler") rfl,
   c6_content_handler_error.2.2 { finished := false, poisoned := false }
      (.ContentHandlerError "Error in element handler") rfl rfl⟩
